import Mathlib

/-!
Verification of the arduino-dsmr P1-telegram parsing core
(`src/dsmr/parser.h`) against its natural-language specification.

The source is embedded shallowly: C pointer ranges become a `List Char`
buffer together with `Nat` indices, `while` loops become structurally
recursive functions on an explicit fuel argument that is instantiated with
the exact remaining distance (so the Lean function is extensionally the
loop, fuel exhaustion coinciding with loop exit), and machine integers
become `Nat` with explicit `% 2 ^ w` where overflow matters.
-/

set_option maxRecDepth 4000

namespace Dsmr

/-- Model of avr-libc `_crc16_update` (`util/crc16.h`, an external library
header included by the source): the CRC-16/IBM update with reflected
polynomial 0xA001, folding one byte into the 16-bit running value. -/
def crc16_update (crc a : Nat) : Nat :=
  let x := (crc % 65536) ^^^ (a % 256)
  (List.range 8).foldl (fun c _ => if c % 2 = 1 then (c / 2) ^^^ 40961 else c / 2) x

/-- CRC16 of a list of bytes (characters), seeded at 0. -/
def crcList (l : List Char) : Nat :=
  l.foldl (fun c ch => crc16_update c ch.toNat) 0

/-- CRC16 folded over the index range `[i, k)` of `buf`, from seed `crc`. -/
def crcFold (buf : List Char) (crc i k : Nat) : Nat :=
  ((buf.drop i).take (k - i)).foldl (fun c ch => crc16_update c ch.toNat) crc

/-- Modelled from the spec: `ObisId` (declared in `util.h`, which is not
under src/): six byte-sized components with component-wise equality,
default-initialised to zeroes. -/
structure ObisId where
  v : List Nat
deriving DecidableEq

def mkObisId (a b c d e f : Nat) : ObisId := ⟨[a, b, c, d, e, f]⟩

/-- Modelled from the spec: `ParseResult` (declared in `util.h`, which is
not under src/): cursor `next` (first unconsumed byte), optional error
message `err` with error position `ctx`, and the decoded `result`. -/
structure ParseResult (α : Type) where
  result : α
  next : Nat := 0
  err : Option String := none
  ctx : Option Nat := none

def ParseResult.fail {α : Type} (r : ParseResult α) (msg : String) (pos : Nat) :
    ParseResult α :=
  { r with err := some msg, ctx := some pos }

/-- `fail` with the default (null) context argument. -/
def ParseResult.failNC {α : Type} (r : ParseResult α) (msg : String) : ParseResult α :=
  { r with err := some msg, ctx := none }

def ParseResult.until {α : Type} (r : ParseResult α) (pos : Nat) : ParseResult α :=
  { r with next := pos }

def ParseResult.succeed {α : Type} (r : ParseResult α) (v : α) : ParseResult α :=
  { r with result := v }

/-- The C++ converting constructor `ParseResult<void>(ParseResult<T>)`:
keeps `next`, `err` and `ctx`, drops the value. -/
def ParseResult.toVoid {α : Type} (r : ParseResult α) : ParseResult Unit :=
  { result := (), next := r.next, err := r.err, ctx := r.ctx }

/-- Modelled from the spec: a field descriptor of the dispatch registry
(the concrete field classes live in `fields.h`, which is not under src/):
an OBIS id as routing key, a decode routine, and a slot that stores the
decoded value on success. -/
structure FieldDesc where
  id : ObisId
  dec : List Char → Nat → Nat → ParseResult (List Char)
  val : Option (List Char) := none

instance : Inhabited FieldDesc :=
  ⟨⟨mkObisId 0 0 0 0 0 0, fun _ s _ => { result := [], next := s }, none⟩⟩

/-- `ParsedData<...>::parse_line`: recursively find the first field with a
matching id and run its decoder (storing the value on success — the storing
step is modelled from the spec, since the field classes are in `fields.h`);
the base case returns `ParseResult<void>().until(str)`, i.e. success-shaped
with the cursor left at `str`. -/
def ParsedData.parse_line :
    List FieldDesc → List Char → ObisId → Nat → Nat → ParseResult Unit × List FieldDesc
  | [], _, _, s, _ => (({ result := () } : ParseResult Unit).until s, [])
  | f :: fs, buf, id, s, e =>
    if id = f.id then
      let r := f.dec buf s e
      if r.err = none then (r.toVoid, { f with val := some r.result } :: fs)
      else (r.toVoid, f :: fs)
    else
      let p := ParsedData.parse_line fs buf id s e
      (p.1, f :: p.2)

/-- The scan `while (str_end < end && *str_end != ')') ++str_end;` from
`StringParser::parse_string`.  Fuel is instantiated with `e - i`, which is
exact: fuel 0 coincides with `i ≥ e`. -/
def StringParser.findClose (buf : List Char) (e : Nat) : Nat → Nat → Nat
  | 0, i => i
  | fuel + 1, i =>
    if i < e then
      if buf.getD i ' ' = ')' then i else StringParser.findClose buf e fuel (i + 1)
    else i

/-- `StringParser::parse_string`. -/
def StringParser.parse_string (mn mx : Nat) (buf : List Char) (s e : Nat) :
    ParseResult (List Char) :=
  let res : ParseResult (List Char) := { result := [] }
  if e ≤ s ∨ buf.getD s ' ' ≠ '(' then res.fail "Missing (" s
  else
    let str_start := s + 1
    let str_end := StringParser.findClose buf e (e - str_start) str_start
    if str_end = e then res.fail "Missing )" s
    else
      let len := str_end - str_start
      if len < mn ∨ mx < len then res.fail "Invalid string length" s
      else (res.succeed ((buf.drop str_start).take len)).until (str_end + 1)

/-- The scan loop of `ObisIdParser::parse`, returning the final cursor,
component index, component vector, and whether the overflow guard fired.
Fuel is instantiated with `e - i`, which is exact. -/
def ObisIdParser.loop (buf : List Char) (e : Nat) :
    Nat → Nat → Nat → List Nat → Nat × Nat × List Nat × Bool
  | 0, i, part, v => (i, part, v, false)
  | fuel + 1, i, part, v =>
    if i < e then
      let c := buf.getD i ' '
      if 48 ≤ c.toNat ∧ c.toNat ≤ 57 then
        let digit := c.toNat - 48
        if 25 < v.getD part 0 ∨ (v.getD part 0 = 25 ∧ 5 < digit) then (i, part, v, true)
        else ObisIdParser.loop buf e fuel (i + 1) part (v.set part (v.getD part 0 * 10 + digit))
      else if part = 0 ∧ c = '-' then ObisIdParser.loop buf e fuel (i + 1) (part + 1) v
      else if part = 1 ∧ c = ':' then ObisIdParser.loop buf e fuel (i + 1) (part + 1) v
      else if 1 < part ∧ part < 5 ∧ c = '.' then ObisIdParser.loop buf e fuel (i + 1) (part + 1) v
      else (i, part, v, false)
    else (i, part, v, false)

/-- `for (++part; part < 6; ++part) id.v[part] = 255;` on a 6-component vector. -/
def ObisIdParser.fill255 (part : Nat) (v : List Nat) : List Nat :=
  (List.range 6).map (fun j => if part < j then 255 else v.getD j 0)

/-- `ObisIdParser::parse`. -/
def ObisIdParser.parse (buf : List Char) (s e : Nat) : ParseResult ObisId :=
  let p := ObisIdParser.loop buf e (e - s) s 0 [0, 0, 0, 0, 0, 0]
  if p.2.2.2 then
    { result := ⟨p.2.2.1⟩, next := p.1, err := some "Obis ID has number over 255", ctx := some s }
  else if p.1 = s then
    { result := ⟨p.2.2.1⟩, next := p.1, err := some "OBIS id Empty", ctx := some s }
  else
    { result := ⟨ObisIdParser.fill255 p.2.1 p.2.2.1⟩, next := p.1 }

/-- The C whitespace class used by `strtoul`. -/
def isSpaceC (c : Char) : Bool := c.toNat = 32 ∨ (9 ≤ c.toNat ∧ c.toNat ≤ 13)

/-- Hexadecimal digit, as accepted by `strtoul` with base 16. -/
def isHexDigitC (c : Char) : Bool :=
  (48 ≤ c.toNat ∧ c.toNat ≤ 57) ∨ (65 ≤ c.toNat ∧ c.toNat ≤ 70) ∨
    (97 ≤ c.toNat ∧ c.toNat ≤ 102)

/-- Value of a hexadecimal digit. -/
def hexVal (c : Char) : Nat :=
  if c.toNat ≤ 57 then c.toNat - 48 else if c.toNat ≤ 70 then c.toNat - 55 else c.toNat - 87

/-- Whether a list starts with a hexadecimal digit. -/
def headHex : List Char → Bool
  | c :: _ => isHexDigitC c
  | [] => false

/-- Final value returned by `strtoul` on avr-libc, where `unsigned long` is
32 bits: a leading minus sign negates modulo `2 ^ 32`. -/
def strtoulFinish (neg : Bool) (v : Nat) : Nat :=
  if neg then (4294967296 - v % 4294967296) % 4294967296 else v % 4294967296

/-- Maximal run of hexadecimal digits, accumulating the value in base 16;
returns the value and the number of characters consumed. -/
def hexRun : List Char → Nat → Nat × Nat
  | [], acc => (acc, 0)
  | c :: cs, acc =>
    if isHexDigitC c then
      let p := hexRun cs (acc * 16 + hexVal c)
      (p.1, p.2 + 1)
    else (acc, 0)

/-- The digit part of `strtoul` with base 16, after whitespace and sign:
an optional `0x`/`0X` prefix (taken only when followed by a hex digit),
then a maximal hex digit run.  `pre` counts the characters consumed before
`t`; the returned count is the offset of `endp`, 0 when no conversion was
performed. -/
def strtoulBody (t : List Char) (neg : Bool) (pre : Nat) : Nat × Nat :=
  match t with
  | c0 :: c1 :: r =>
    if c0 = '0' ∧ (c1 = 'x' ∨ c1 = 'X') ∧ headHex r then
      let p := hexRun r 0
      (strtoulFinish neg p.1, pre + 2 + p.2)
    else
      let p := hexRun t 0
      if p.2 = 0 then (0, 0) else (strtoulFinish neg p.1, pre + p.2)
  | _ =>
    let p := hexRun t 0
    if p.2 = 0 then (0, 0) else (strtoulFinish neg p.1, pre + p.2)

/-- Model of C `strtoul(s, &endp, 16)` (avr-libc, called by
`CrcParser::parse`): skip C whitespace, accept an optional sign, an
optional `0x` prefix, then a maximal hex-digit run.  Returns the converted
value and the offset of `endp` from the start of `s` (0 when no conversion
was performed). -/
def strtoul16 (s : List Char) : Nat × Nat :=
  let w := (s.takeWhile (fun c => isSpaceC c)).length
  match s.drop w with
  | [] => (0, 0)
  | c :: r =>
    if c = '-' then strtoulBody r true (w + 1)
    else if c = '+' then strtoulBody r false (w + 1)
    else strtoulBody (c :: r) false w

/-- `CrcParser::parse`: the 4 bytes at `str` are copied into a
NUL-terminated buffer (so an embedded NUL truncates what `strtoul` sees)
and parsed by `strtoul` with base 16; all four bytes must have been
consumed.  The `uint16_t` result truncates modulo `2 ^ 16`. -/
def CrcParser.parse (buf : List Char) (s e : Nat) : ParseResult Nat :=
  let res : ParseResult Nat := { result := 0 }
  if e < s + 4 then res.fail "No checksum found" s
  else
    let four := ((buf.drop s).take 4).takeWhile (fun c => c.toNat ≠ 0)
    let p := strtoul16 four
    if p.2 ≠ 4 then res.fail "Incomplete or malformed checksum" s
    else (res.succeed (p.1 % 65536)).until (s + 4)

/-- Line terminator test `*p == '\r' || *p == '\n'`. -/
def P1Parser.isTermChar (c : Char) : Bool := c = '\r' ∨ c = '\n'

/-- `P1Parser::parse_line`: parse one data line `[line, e)`. -/
def P1Parser.parse_line (fields : List FieldDesc) (buf : List Char) (line e : Nat) :
    ParseResult Unit × List FieldDesc :=
  let res : ParseResult Unit := { result := () }
  if line = e then (res, fields)
  else
    let idres := ObisIdParser.parse buf line e
    if idres.err ≠ none then (idres.toVoid, fields)
    else
      let p := ParsedData.parse_line fields buf idres.result idres.next e
      if p.1.err ≠ none then p
      else if p.1.next ≠ idres.next ∧ p.1.next ≠ e then
        (res.fail "Trailing characters on data line" p.1.next, p.2)
      else (res.until e, p.2)

/-- The first loop of `P1Parser::parse_data`: scan for the terminator of
the identification line, validate and dispatch it under the all-ones
sentinel id.  Returns `inl` on failure, otherwise `inr` of the
continuation state `(line_start, line_end, registry)`.  Fuel is
instantiated with `e - le`, which is exact. -/
def P1Parser.idLineLoop (fields : List FieldDesc) (buf : List Char) (e s : Nat) :
    Nat → Nat → (ParseResult Unit × List FieldDesc) ⊕ (Nat × Nat × List FieldDesc)
  | 0, le => Sum.inr (s, le, fields)
  | fuel + 1, le =>
    if le < e then
      if P1Parser.isTermChar (buf.getD le ' ') then
        if le ≤ s + 3 ∨ (buf.getD (s + 3) ' ' ≠ '5' ∧ buf.getD (s + 3) ' ' ≠ '3') then
          Sum.inl (({ result := () } : ParseResult Unit).fail "Invalid identification string" s,
            fields)
        else
          let p := ParsedData.parse_line fields buf (mkObisId 255 255 255 255 255 255) s le
          if p.1.err ≠ none then Sum.inl p
          else Sum.inr (le + 1, le + 1, p.2)
      else P1Parser.idLineLoop fields buf e s fuel (le + 1)
    else Sum.inr (s, le, fields)

/-- The second loop of `P1Parser::parse_data`: split `[line_start, e)` at
terminators and parse each data line, then apply the trailing-line check.
Fuel is instantiated with `e - le`, which is exact. -/
def P1Parser.dataLineLoop (buf : List Char) (e : Nat) :
    Nat → List FieldDesc → Nat → Nat → ParseResult Unit × List FieldDesc
  | 0, fields, ls, le =>
    if le ≠ ls then
      (({ result := () } : ParseResult Unit).fail "Last dataline not CRLF terminated" ls, fields)
    else ({ result := () }, fields)
  | fuel + 1, fields, ls, le =>
    if le < e then
      if P1Parser.isTermChar (buf.getD le ' ') then
        let p := P1Parser.parse_line fields buf ls le
        if p.1.err ≠ none then p
        else P1Parser.dataLineLoop buf e fuel p.2 (le + 1) (le + 1)
      else P1Parser.dataLineLoop buf e fuel fields ls (le + 1)
    else
      if le ≠ ls then
        (({ result := () } : ParseResult Unit).fail "Last dataline not CRLF terminated" ls, fields)
      else ({ result := () }, fields)

/-- `P1Parser::parse_data`: identification line, then data lines. -/
def P1Parser.parse_data (fields : List FieldDesc) (buf : List Char) (s e : Nat) :
    ParseResult Unit × List FieldDesc :=
  match P1Parser.idLineLoop fields buf e s (e - s) s with
  | Sum.inl out => out
  | Sum.inr (ls, le, fields') => P1Parser.dataLineLoop buf e (e - le) fields' ls le

/-- The scan `while (data_end < str + n && *data_end != '!') ...` of
`P1Parser::parse`, accumulating the CRC.  Fuel is instantiated with
`n - i`, which is exact. -/
def P1Parser.scanBang (buf : List Char) (n : Nat) : Nat → Nat → Nat → Nat × Nat
  | 0, i, crc => (i, crc)
  | fuel + 1, i, crc =>
    if i < n then
      if buf.getD i ' ' = '!' then (i, crc)
      else P1Parser.scanBang buf n fuel (i + 1) (crc16_update crc (buf.getD i ' ').toNat)
    else (i, crc)

/-- `P1Parser::parse`: framing, CRC accumulation over `/`..`!`, checksum
decode and verification, then the data phase. -/
def P1Parser.parse (fields : List FieldDesc) (buf : List Char) (n : Nat) :
    ParseResult Unit × List FieldDesc :=
  let res : ParseResult Unit := { result := () }
  if n = 0 ∨ buf.getD 0 ' ' ≠ '/' then (res.fail "Data should start with /" 0, fields)
  else
    let p := P1Parser.scanBang buf n (n - 1) 1 (crc16_update 0 (buf.getD 0 ' ').toNat)
    if n ≤ p.1 then (res.failNC "No checksum found", fields)
    else
      let crc := crc16_update p.2 (buf.getD p.1 ' ').toNat
      let check := CrcParser.parse buf (p.1 + 1) n
      if check.err ≠ none then (check.toVoid, fields)
      else if check.result ≠ crc then (res.fail "Checksum mismatch" p.1, fields)
      else
        let q := P1Parser.parse_data fields buf 1 p.1
        ({ q.1 with next := check.next }, q.2)

/-- The digits (as values) in the index range `[s, m)` of the buffer. -/
def decDigits (buf : List Char) (s m : Nat) : List Nat :=
  (List.range (m - s)).map (fun t => (buf.getD (s + t) ' ').toNat - 48)

/-- Decimal value of the digit run in the index range `[s, m)`. -/
def decimalVal (buf : List Char) (s m : Nat) : Nat :=
  (decDigits buf s m).foldl (fun a d => a * 10 + d) 0

/-- A concrete registry entry used by witnesses: OBIS id `1-2:3.4.5.6`
with a plain string-envelope decoder. -/
def sampleField : FieldDesc :=
  { id := mkObisId 1 2 3 4 5 6, dec := fun buf s e => StringParser.parse_string 0 99 buf s e }

/-- A second concrete registry entry (never matched by the witness
telegrams): OBIS id `7-7:7.7.7.7`. -/
def otherField : FieldDesc :=
  { id := mkObisId 7 7 7 7 7 7, dec := fun buf s e => StringParser.parse_string 0 99 buf s e }

/-- The registry carried by either outcome of the identification-line
loop. -/
def regOfId : (ParseResult Unit × List FieldDesc) ⊕ (Nat × Nat × List FieldDesc) →
    List FieldDesc
  | Sum.inl out => out.2
  | Sum.inr r => r.2.2

/-! Basic properties of the CRC accumulation and the boundary scan. -/

lemma crcFold_self (buf : List Char) (x i : Nat) : crcFold buf x i i = x := by
  simp [crcFold]

lemma crcFold_first (buf : List Char) (x i k : Nat) (hik : i < k) (hl : i < buf.length) :
    crcFold buf x i k = crcFold buf (crc16_update x (buf.getD i ' ').toNat) (i + 1) k := by
  unfold crcFold
  rw [List.drop_eq_getElem_cons hl, show k - i = (k - (i + 1)) + 1 by omega,
    List.take_succ_cons, List.foldl_cons, List.getD_eq_getElem _ _ hl]

lemma crcFold_last (buf : List Char) (x i k : Nat) (hik : i ≤ k) (hl : k < buf.length) :
    crcFold buf x i (k + 1) = crc16_update (crcFold buf x i k) (buf.getD k ' ').toNat := by
  unfold crcFold
  rw [show k + 1 - i = (k - i) + 1 by omega, List.take_succ, List.getElem?_drop,
    show i + (k - i) = k by omega, List.getElem?_eq_getElem hl]
  simp [List.foldl_append, List.getElem?_eq_getElem hl, List.getD_eq_getElem _ _ hl]

lemma crcList_take (buf : List Char) (m : Nat) : crcList (buf.take m) = crcFold buf 0 0 m := by
  simp [crcList, crcFold]

/-- Characterisation of the `!`-boundary scan of `P1Parser::parse`: with
fuel `n - i` it stops at the first `!` at or after `i` (or at `n`), having
folded every byte it passed over into the CRC. -/
lemma scanBang_spec (buf : List Char) (n : Nat) (hlen : n ≤ buf.length) :
    ∀ fuel i crc k c, P1Parser.scanBang buf n fuel i crc = (k, c) → fuel = n - i → i ≤ n →
      i ≤ k ∧ k ≤ n ∧ (∀ j, i ≤ j → j < k → buf.getD j ' ' ≠ '!') ∧
        (k < n → buf.getD k ' ' = '!') ∧ c = crcFold buf crc i k := by
  intro fuel
  induction fuel with
  | zero =>
    intro i crc k c heq hf hi
    simp only [P1Parser.scanBang, Prod.mk.injEq] at heq
    obtain ⟨rfl, rfl⟩ := heq
    exact ⟨le_refl _, hi, fun j h1 h2 => absurd h2 (by omega),
      fun h => absurd h (by omega), (crcFold_self buf crc i).symm⟩
  | succ fuel ih =>
    intro i crc k c heq hf hi
    have hin : i < n := by omega
    simp only [P1Parser.scanBang] at heq
    rw [if_pos hin] at heq
    by_cases hb : buf.getD i ' ' = '!'
    · rw [if_pos hb] at heq
      simp only [Prod.mk.injEq] at heq
      obtain ⟨rfl, rfl⟩ := heq
      exact ⟨le_refl _, by omega, fun j h1 h2 => absurd h2 (by omega),
        fun _ => hb, (crcFold_self buf crc i).symm⟩
    · rw [if_neg hb] at heq
      obtain ⟨h1, h2, h3, h4, h5⟩ := ih (i + 1) _ k c heq (by omega) (by omega)
      refine ⟨by omega, h2, ?_, h4, ?_⟩
      · intro j hj1 hj2
        rcases Nat.eq_or_lt_of_le hj1 with hji | hji
        · exact hji ▸ hb
        · exact h3 j (by omega) hj2
      · rw [h5, ← crcFold_first buf crc i k (by omega) (by omega)]

lemma decDigits_cons (buf : List Char) (s m : Nat) (h : s < m) :
    decDigits buf s m = ((buf.getD s ' ').toNat - 48) :: decDigits buf (s + 1) m := by
  unfold decDigits
  rw [show m - s = (m - (s + 1)) + 1 by omega, List.range_succ_eq_map, List.map_cons,
    List.map_map]
  simp only [Nat.add_zero]
  have hfun : ((fun t => (buf.getD (s + t) ' ').toNat - 48) ∘ Nat.succ) =
      (fun t => (buf.getD (s + 1 + t) ' ').toNat - 48) := by
    funext t
    simp only [Function.comp_apply]
    rw [show s + Nat.succ t = s + 1 + t by omega]
  rw [hfun]

/-- If the scan of `ObisIdParser::parse` sits at the start of an all-digit
run whose decimal value exceeds 255 (current accumulator at most 255),
the overflow guard fires before the run ends. -/
lemma obis_loop_overflow_aux (buf : List Char) (e m : Nat) (hm : m ≤ e) :
    ∀ f i acc rest, f = m - i → i < m →
      (∀ j, i ≤ j → j < m → 48 ≤ (buf.getD j ' ').toNat ∧ (buf.getD j ' ').toNat ≤ 57) →
      acc ≤ 255 →
      255 < (decDigits buf i m).foldl (fun a d => a * 10 + d) acc →
      (ObisIdParser.loop buf e (e - i) i 0 (acc :: rest)).2.2.2 = true := by
  intro f
  induction f with
  | zero => intro i acc rest hf hi _ _ _; omega
  | succ f ih =>
    intro i acc rest hf hi hdig hacc hval
    have hie : i < e := by omega
    obtain ⟨hd1, hd2⟩ := hdig i (le_refl i) hi
    rw [show e - i = (e - (i + 1)) + 1 by omega]
    simp only [ObisIdParser.loop]
    rw [if_pos hie, if_pos ⟨hd1, hd2⟩]
    simp only [List.getD_cons_zero]
    by_cases hg : 25 < acc ∨ (acc = 25 ∧ 5 < (buf.getD i ' ').toNat - 48)
    · rw [if_pos hg]
    · rw [if_neg hg]
      simp only [List.set_cons_zero]
      push_neg at hg
      have hacc' : acc * 10 + ((buf.getD i ' ').toNat - 48) ≤ 255 := by omega
      simp only [decDigits_cons buf i m hi, List.foldl_cons] at hval
      have him : i + 1 < m := by
        by_contra hc
        have hmi : m = i + 1 := by omega
        rw [hmi] at hval
        unfold decDigits at hval
        simp only [Nat.sub_self, List.range_zero, List.map_nil, List.foldl_nil] at hval
        omega
      exact ih (i + 1) _ rest (by omega) him
        (fun j hj1 hj2 => hdig j (by omega) hj2) hacc' hval

/-- Claim C2 (counterexample): on the input `256`, the offending digit `6`
sits at offset 2 (and `next` points at it), but the reported failure
position `ctx` is offset 0, the start of the id — not the offending
digit. -/
theorem c2_overflow_position_counterexample :
    (ObisIdParser.parse ("256".toList) 0 3).err = some "Obis ID has number over 255" ∧
      (ObisIdParser.parse ("256".toList) 0 3).next = 2 ∧
      (ObisIdParser.parse ("256".toList) 0 3).ctx = some 0 ∧
      ¬ (ObisIdParser.parse ("256".toList) 0 3).ctx = some 2 := by decide

/-- Claim C2 (amended): for every textual input whose leading digit run
would exceed 255, `ObisIdParser.parse` fails with the overflow error, but
the reported failure position (`ctx`) is the offset of the start of the
id, not of the offending digit (the offending digit's offset is exposed in
`next` instead, cf. the counterexample). -/
theorem c2_overflow_fails_at_start (buf : List Char) (s e m : Nat) (hm : m ≤ e) (hsm : s < m)
    (hdig : ∀ j, j < m → s ≤ j → 48 ≤ (buf.getD j ' ').toNat ∧ (buf.getD j ' ').toNat ≤ 57)
    (hval : 255 < decimalVal buf s m) :
    (ObisIdParser.parse buf s e).err = some "Obis ID has number over 255" ∧
      (ObisIdParser.parse buf s e).ctx = some s := by
  have hfail := obis_loop_overflow_aux buf e m hm (m - s) s 0 [0, 0, 0, 0, 0] rfl hsm
    (fun j hj1 hj2 => hdig j hj2 hj1) (by omega) hval
  simp only [ObisIdParser.parse]
  rw [if_pos hfail]
  exact ⟨rfl, rfl⟩

/-- Witness for the amended C2: input `999` fails with the overflow error,
reported at offset 0. -/
theorem c2_overflow_fails_at_start_witness :
    (ObisIdParser.parse ("999".toList) 0 3).err = some "Obis ID has number over 255" ∧
      (ObisIdParser.parse ("999".toList) 0 3).ctx = some 0 :=
  c2_overflow_fails_at_start ("999".toList) 0 3 3 (by decide) (by decide) (by decide) (by decide)

/-- Reduction of `P1Parser.parse` past the framing check and the boundary
scan, given the scan's result. -/
lemma p1_parse_reduce (fields : List FieldDesc) (buf : List Char) (n k c : Nat)
    (hOr : ¬(n = 0 ∨ buf.getD 0 ' ' ≠ '/'))
    (hkc : P1Parser.scanBang buf n (n - 1) 1 (crc16_update 0 (buf.getD 0 ' ').toNat) = (k, c))
    (hnb : ¬ n ≤ k) :
    P1Parser.parse fields buf n =
      (if (CrcParser.parse buf (k + 1) n).err ≠ none then
        ((CrcParser.parse buf (k + 1) n).toVoid, fields)
      else if (CrcParser.parse buf (k + 1) n).result ≠ crc16_update c (buf.getD k ' ').toNat then
        (({ result := () } : ParseResult Unit).fail "Checksum mismatch" k, fields)
      else
        ({ (P1Parser.parse_data fields buf 1 k).1 with
            next := (CrcParser.parse buf (k + 1) n).next },
          (P1Parser.parse_data fields buf 1 k).2)) := by
  simp only [P1Parser.parse]
  rw [if_neg hOr, hkc]
  rw [if_neg hnb]

/-- Claim C1: `P1Parser.parse` accumulates a CRC16 seeded at 0 over every
byte from the leading `/` through the terminating `!` inclusive (the fold
`crcList (buf.take (b + 1))` below); whenever the decoded 4-hex-digit
checksum differs from this value the parse fails with a checksum-mismatch
error positioned at the `!`, and no parse returns success unless the two
values are equal. -/
theorem c1_crc_gate (fields : List FieldDesc) (buf : List Char) (n b : Nat)
    (hlen : n ≤ buf.length) (h0 : buf.getD 0 ' ' = '/') (hb : b < n)
    (hbang : buf.getD b ' ' = '!') (hfirst : ∀ j, j < b → buf.getD j ' ' ≠ '!') :
    ((CrcParser.parse buf (b + 1) n).err = none →
      (CrcParser.parse buf (b + 1) n).result ≠ crcList (buf.take (b + 1)) →
      (P1Parser.parse fields buf n).1.err = some "Checksum mismatch" ∧
        (P1Parser.parse fields buf n).1.ctx = some b) ∧
    ((P1Parser.parse fields buf n).1.err = none →
      (CrcParser.parse buf (b + 1) n).err = none ∧
        (CrcParser.parse buf (b + 1) n).result = crcList (buf.take (b + 1))) := by
  have hb1 : 1 ≤ b := by
    rcases Nat.eq_zero_or_pos b with hz | hp
    · subst hz
      exact absurd (h0.symm.trans hbang) (by decide)
    · exact hp
  have hn1 : 1 ≤ n := by omega
  obtain ⟨k, c, hkc⟩ : ∃ k c, P1Parser.scanBang buf n (n - 1) 1
      (crc16_update 0 (buf.getD 0 ' ').toNat) = (k, c) := ⟨_, _, rfl⟩
  obtain ⟨h1, h2, h3, h4, h5⟩ :=
    scanBang_spec buf n hlen (n - 1) 1 _ k c hkc (by omega) (by omega)
  have hkb : k = b := by
    rcases Nat.lt_trichotomy k b with hlt | heq | hgt
    · exact absurd (h4 (by omega)) (hfirst k hlt)
    · exact heq
    · exact absurd hbang (h3 b hb1 hgt)
  subst hkb
  have hcrc : crc16_update c (buf.getD k ' ').toNat = crcList (buf.take (k + 1)) := by
    rw [h5, ← crcFold_last buf _ 1 k hb1 (by omega), crcList_take,
      crcFold_first buf 0 0 (k + 1) (by omega) (by omega)]
  have hOr : ¬(n = 0 ∨ buf.getD 0 ' ' ≠ '/') := by
    push_neg
    exact ⟨by omega, h0⟩
  have hnb : ¬ n ≤ k := by omega
  have hred := p1_parse_reduce fields buf n k c hOr hkc hnb
  rw [hcrc] at hred
  constructor
  · intro hce hne
    rw [hred, if_neg (not_not_intro hce), if_pos hne]
    exact ⟨rfl, rfl⟩
  · intro hok
    rw [hred] at hok
    by_cases hce : (CrcParser.parse buf (k + 1) n).err = none
    · refine ⟨hce, ?_⟩
      by_cases heq : (CrcParser.parse buf (k + 1) n).result = crcList (buf.take (k + 1))
      · exact heq
      · exfalso
        rw [if_neg (not_not_intro hce), if_pos heq] at hok
        simp [ParseResult.fail] at hok
    · exfalso
      rw [if_pos hce] at hok
      simp [ParseResult.toVoid] at hok
      exact hce hok

/-- Witness for C1: the telegram `/!0000` carries checksum 0, while the
CRC16 of `/!` is 10460, so the parse fails with a checksum mismatch
positioned at the `!` (offset 1). -/
theorem c1_crc_gate_witness :
    (P1Parser.parse [] ("/!0000".toList) 6).1.err = some "Checksum mismatch" ∧
      (P1Parser.parse [] ("/!0000".toList) 6).1.ctx = some 1 :=
  (c1_crc_gate [] ("/!0000".toList) 6 1 (by decide) (by decide) (by decide) (by decide)
    (by decide)).1 (by decide) (by decide)

/-! Properties of the `strtoul`-based checksum decoding. -/

lemma hex_not_space (c : Char) (h : isHexDigitC c = true) : isSpaceC c = false := by
  simp only [isHexDigitC, decide_eq_true_eq] at h
  simp only [isSpaceC, decide_eq_false_iff_not]
  omega

lemma hex_ne (c : Char) (h : isHexDigitC c = true) (x : Char) (hx : isHexDigitC x = false) :
    c ≠ x := by
  intro he
  rw [he, hx] at h
  cases h

lemma hex_toNat_ne_zero (c : Char) (h : isHexDigitC c = true) : c.toNat ≠ 0 := by
  simp only [isHexDigitC, decide_eq_true_eq] at h
  omega

lemma hexVal_le15 (c : Char) (h : isHexDigitC c = true) : hexVal c ≤ 15 := by
  simp only [isHexDigitC, decide_eq_true_eq] at h
  unfold hexVal
  by_cases h1 : c.toNat ≤ 57
  · rw [if_pos h1]
    omega
  · rw [if_neg h1]
    by_cases h2 : c.toNat ≤ 70
    · rw [if_pos h2]
      omega
    · rw [if_neg h2]
      omega

lemma takeWhile_nonnul_hex4 (a b c d : Char)
    (ha : isHexDigitC a = true) (hb : isHexDigitC b = true)
    (hc : isHexDigitC c = true) (hd : isHexDigitC d = true) :
    ([a, b, c, d].takeWhile (fun ch => ch.toNat ≠ 0)) = [a, b, c, d] := by
  simp [List.takeWhile_cons, hex_toNat_ne_zero a ha, hex_toNat_ne_zero b hb,
    hex_toNat_ne_zero c hc, hex_toNat_ne_zero d hd]

lemma strtoul16_hex4 (a b c d : Char)
    (ha : isHexDigitC a = true) (hb : isHexDigitC b = true)
    (hc : isHexDigitC c = true) (hd : isHexDigitC d = true) :
    strtoul16 [a, b, c, d] =
      (((hexVal a * 16 + hexVal b) * 16 + hexVal c) * 16 + hexVal d, 4) := by
  have hsa : isSpaceC a = false := hex_not_space a ha
  have hna : a ≠ '-' := hex_ne a ha '-' (by decide)
  have hpa : a ≠ '+' := hex_ne a ha '+' (by decide)
  have hbx : b ≠ 'x' := hex_ne b hb 'x' (by decide)
  have hbX : b ≠ 'X' := hex_ne b hb 'X' (by decide)
  have hpre : ¬(a = '0' ∧ (b = 'x' ∨ b = 'X') ∧ headHex [c, d] = true) := by
    rintro ⟨-, hor, -⟩
    exact hor.elim hbx hbX
  have hV : ((((0 * 16 + hexVal a) * 16 + hexVal b) * 16 + hexVal c) * 16 + hexVal d)
      < 4294967296 := by
    have := hexVal_le15 a ha
    have := hexVal_le15 b hb
    have := hexVal_le15 c hc
    have := hexVal_le15 d hd
    omega
  simp only [strtoul16, List.takeWhile_cons, hsa, Bool.false_eq_true, if_false,
    List.length_nil, List.drop_zero]
  rw [if_neg hna, if_neg hpa]
  simp only [strtoulBody, hexRun, ha, hb, hc, hd, if_true, if_pos rfl]
  rw [if_neg hpre]
  simp only [strtoulFinish, Bool.false_eq_true, if_false]
  rw [if_neg (by norm_num : ¬ (0 + 1 + 1 + 1 + 1 = 0)), Nat.mod_eq_of_lt hV]
  simp only [Prod.mk.injEq]
  exact ⟨by ring, by norm_num⟩

lemma crcParser_hex4 (buf : List Char) (s e : Nat) (a b c d : Char)
    (h4 : (buf.drop s).take 4 = [a, b, c, d]) (he : s + 4 ≤ e)
    (ha : isHexDigitC a = true) (hb : isHexDigitC b = true)
    (hc : isHexDigitC c = true) (hd : isHexDigitC d = true) :
    CrcParser.parse buf s e =
      { result := ((hexVal a * 16 + hexVal b) * 16 + hexVal c) * 16 + hexVal d,
        next := s + 4 } := by
  have hW : (((buf.drop s).take 4).takeWhile (fun ch => ch.toNat ≠ 0)) = [a, b, c, d] := by
    rw [h4]
    exact takeWhile_nonnul_hex4 a b c d ha hb hc hd
  have hVlt : ((hexVal a * 16 + hexVal b) * 16 + hexVal c) * 16 + hexVal d < 65536 := by
    have := hexVal_le15 a ha
    have := hexVal_le15 b hb
    have := hexVal_le15 c hc
    have := hexVal_le15 d hd
    omega
  simp only [CrcParser.parse]
  rw [if_neg (by omega : ¬ e < s + 4), hW, strtoul16_hex4 a b c d ha hb hc hd]
  rw [if_neg (by simp : ¬ ((((hexVal a * 16 + hexVal b) * 16 + hexVal c) * 16 + hexVal d,
    4) : Nat × Nat).2 ≠ 4)]
  simp only [ParseResult.succeed, ParseResult.until]
  rw [Nat.mod_eq_of_lt hVlt]

/-- Claim C3: `CrcParser.parse` fails with "No checksum found" when fewer
than 4 bytes remain, and succeeds with the big-endian hex value (and
`next` advanced by exactly 4) when the 4 bytes are hex digits.  However,
the claim that it fails whenever any of the 4 bytes is **not** a hex digit
is wrong (see the counterexample): the check is `strtoul` with base 16
consuming all four bytes, which also tolerates leading C whitespace, an
optional sign and an `0x` prefix.  The third conjunct states the exact
success condition. -/
theorem c3_crc_parse_spec (buf : List Char) (s e : Nat) :
    (e < s + 4 → (CrcParser.parse buf s e).err = some "No checksum found") ∧
    (∀ a b c d : Char, s + 4 ≤ e → (buf.drop s).take 4 = [a, b, c, d] →
      isHexDigitC a = true → isHexDigitC b = true → isHexDigitC c = true →
      isHexDigitC d = true →
      (CrcParser.parse buf s e).err = none ∧
        (CrcParser.parse buf s e).result =
          ((hexVal a * 16 + hexVal b) * 16 + hexVal c) * 16 + hexVal d ∧
        (CrcParser.parse buf s e).next = s + 4) ∧
    ((CrcParser.parse buf s e).err = none →
      (strtoul16 (((buf.drop s).take 4).takeWhile (fun ch => ch.toNat ≠ 0))).2 = 4) := by
  refine ⟨?_, ?_, ?_⟩
  · intro hlt
    simp only [CrcParser.parse]
    rw [if_pos hlt]
    rfl
  · intro a b c d he h4 ha hb hc hd
    rw [crcParser_hex4 buf s e a b c d h4 he ha hb hc hd]
    exact ⟨rfl, rfl, rfl⟩
  · intro hok
    by_cases hlt : e < s + 4
    · exfalso
      simp only [CrcParser.parse] at hok
      rw [if_pos hlt] at hok
      simp [ParseResult.fail] at hok
    · by_cases hk :
        (strtoul16 (((buf.drop s).take 4).takeWhile (fun ch => ch.toNat ≠ 0))).2 = 4
      · exact hk
      · exfalso
        simp only [CrcParser.parse] at hok
        rw [if_neg hlt, if_pos hk] at hok
        simp [ParseResult.fail] at hok

/-- Claim C3 (counterexample): the 4 bytes ` 123` contain a space, which
is not a hexadecimal digit, yet `CrcParser.parse` succeeds (value 0x123,
`next` advanced by 4), because `strtoul` skips the leading whitespace. -/
theorem c3_nonhex_accepted_counterexample :
    (CrcParser.parse (" 123".toList) 0 4).err = none ∧
      (CrcParser.parse (" 123".toList) 0 4).result = 291 ∧
      (CrcParser.parse (" 123".toList) 0 4).next = 4 ∧
      isHexDigitC ' ' = false := by decide

/-- Witness for the amended C3: `12AB` decodes to 0x12AB with `next`
advanced by 4. -/
theorem c3_crc_parse_spec_witness :
    (CrcParser.parse ("12AB".toList) 0 4).err = none ∧
      (CrcParser.parse ("12AB".toList) 0 4).result =
        ((hexVal '1' * 16 + hexVal '2') * 16 + hexVal 'A') * 16 + hexVal 'B' ∧
      (CrcParser.parse ("12AB".toList) 0 4).next = 0 + 4 :=
  (c3_crc_parse_spec ("12AB".toList) 0 4).2.1 '1' '2' 'A' 'B' (by decide) (by decide)
    (by decide) (by decide) (by decide) (by decide)

/-- Claim C4 (counterexample): in `1-2.` the `.` is reached while the
current component index is 1; the claim says a `.` is consumed for
component indices 1 through 4, but the code stops the scan instead:
`next` is 3 (pointing at the `.`), not 4, and no error is raised. -/
theorem c4_dot_component_counterexample :
    (ObisIdParser.parse ("1-2.".toList) 0 4).err = none ∧
      (ObisIdParser.parse ("1-2.".toList) 0 4).next = 3 ∧
      ¬ (ObisIdParser.parse ("1-2.".toList) 0 4).next = 4 := by decide

/-- Claim C4 (amended): in the scan of `ObisIdParser.parse`, a non-digit
character is consumed (advancing the component index) exactly when it is a
`-` at component index 0, a `:` at component index 1, or a `.` at
component index 2 through 4 (not 1 through 4); any other character stops
the scan, and when the scan stops having consumed at least one character
the parse succeeds with `next` at the first unconsumed character. -/
theorem c4_separator_policy (buf : List Char) (e i part : Nat) (v : List Nat) (f : Nat)
    (hf : f + 1 = e - i)
    (hnd : ¬(48 ≤ (buf.getD i ' ').toNat ∧ (buf.getD i ' ').toNat ≤ 57)) :
    (((part = 0 ∧ buf.getD i ' ' = '-') ∨ (part = 1 ∧ buf.getD i ' ' = ':') ∨
        (1 < part ∧ part < 5 ∧ buf.getD i ' ' = '.')) →
      ObisIdParser.loop buf e (f + 1) i part v =
        ObisIdParser.loop buf e f (i + 1) (part + 1) v) ∧
    (¬((part = 0 ∧ buf.getD i ' ' = '-') ∨ (part = 1 ∧ buf.getD i ' ' = ':') ∨
        (1 < part ∧ part < 5 ∧ buf.getD i ' ' = '.')) →
      ObisIdParser.loop buf e (f + 1) i part v = (i, part, v, false)) ∧
    (∀ s i' part' v', ObisIdParser.loop buf e (e - s) s 0 [0, 0, 0, 0, 0, 0] =
        (i', part', v', false) → ¬ i' = s →
      (ObisIdParser.parse buf s e).err = none ∧ (ObisIdParser.parse buf s e).next = i') := by
  have hie : i < e := by omega
  refine ⟨?_, ?_, ?_⟩
  · rintro (⟨hp, hcc⟩ | ⟨hp, hcc⟩ | ⟨hp1, hp2, hcc⟩)
    · simp only [ObisIdParser.loop]
      rw [if_pos hie, if_neg hnd, if_pos ⟨hp, hcc⟩]
    · simp only [ObisIdParser.loop]
      rw [if_pos hie, if_neg hnd, if_neg (by rintro ⟨h0, -⟩; omega), if_pos ⟨hp, hcc⟩]
    · simp only [ObisIdParser.loop]
      rw [if_pos hie, if_neg hnd, if_neg (by rintro ⟨h0, -⟩; omega),
        if_neg (by rintro ⟨h1, -⟩; omega), if_pos ⟨hp1, hp2, hcc⟩]
  · intro hno
    have h1 : ¬(part = 0 ∧ buf.getD i ' ' = '-') := fun h => hno (Or.inl h)
    have h2 : ¬(part = 1 ∧ buf.getD i ' ' = ':') := fun h => hno (Or.inr (Or.inl h))
    have h3 : ¬(1 < part ∧ part < 5 ∧ buf.getD i ' ' = '.') := fun h => hno (Or.inr (Or.inr h))
    simp only [ObisIdParser.loop]
    rw [if_pos hie, if_neg hnd, if_neg h1, if_neg h2, if_neg h3]
  · intro s i' part' v' hloop hne
    simp only [ObisIdParser.parse]
    rw [hloop]
    dsimp only
    rw [if_neg Bool.false_ne_true, if_neg hne]
    exact ⟨rfl, rfl⟩

/-- Witness for the amended C4: stepping past the `-` of `1-2:3` at
component index 0 advances the component index, and the full parse of
`1-2:3` succeeds with `next` = 5. -/
theorem c4_separator_policy_witness :
    (ObisIdParser.parse ("1-2:3".toList) 0 5).err = none ∧
      (ObisIdParser.parse ("1-2:3".toList) 0 5).next = 5 :=
  (c4_separator_policy ("1-2:3".toList) 5 1 0 [1, 0, 0, 0, 0, 0] 3 (by decide)
    (by decide)).2.2 0 5 2 [1, 2, 3, 0, 0, 0] (by decide) (by decide)

/-- Characterisation of the `)`-scan of `StringParser::parse_string`:
with fuel `e - i` it stops at the first `)` at or after `i`, or at `e`. -/
lemma findClose_spec (buf : List Char) (e : Nat) :
    ∀ fuel i c, fuel = e - i → i ≤ c → c ≤ e →
      (∀ j, i ≤ j → j < c → buf.getD j ' ' ≠ ')') → (c = e ∨ buf.getD c ' ' = ')') →
      StringParser.findClose buf e fuel i = c := by
  intro fuel
  induction fuel with
  | zero =>
    intro i c hf h1 h2 h3 h4
    simp only [StringParser.findClose]
    omega
  | succ fuel ih =>
    intro i c hf h1 h2 h3 h4
    have hie : i < e := by omega
    simp only [StringParser.findClose]
    rw [if_pos hie]
    by_cases hcl : buf.getD i ' ' = ')'
    · rw [if_pos hcl]
      by_contra hic
      exact h3 i (le_refl i) (by omega) hcl
    · rw [if_neg hcl]
      have hic : i < c := by
        rcases Nat.eq_or_lt_of_le h1 with heq | hlt
        · exfalso
          rcases h4 with hce | hp
          · omega
          · rw [← heq] at hp
            exact hcl hp
        · exact hlt
      exact ih (i + 1) c (by omega) (by omega) h2 (fun j hj1 hj2 => h3 j (by omega) hj2) h4

/-- Claim C7: `StringParser.parse_string` fails when the first character
is not `(` (or the range is empty), when no `)` occurs before the end of
the range, or when the payload length between the parentheses is outside
the `[mn, mx]` bounds; on success it returns the payload verbatim and a
`next` position one past the closing `)`. -/
theorem c7_parse_string_spec (mn mx : Nat) (buf : List Char) (s e : Nat) :
    ((e ≤ s ∨ buf.getD s ' ' ≠ '(') →
      (StringParser.parse_string mn mx buf s e).err = some "Missing (" ∧
        (StringParser.parse_string mn mx buf s e).ctx = some s) ∧
    (s < e → buf.getD s ' ' = '(' → (∀ j, j < e → s < j → buf.getD j ' ' ≠ ')') →
      (StringParser.parse_string mn mx buf s e).err = some "Missing )" ∧
        (StringParser.parse_string mn mx buf s e).ctx = some s) ∧
    (∀ c, s < c → c < e → buf.getD c ' ' = ')' →
      (∀ j, j < c → s < j → buf.getD j ' ' ≠ ')') → buf.getD s ' ' = '(' →
      ((c - (s + 1) < mn ∨ mx < c - (s + 1) →
        (StringParser.parse_string mn mx buf s e).err = some "Invalid string length" ∧
          (StringParser.parse_string mn mx buf s e).ctx = some s) ∧
       (mn ≤ c - (s + 1) → c - (s + 1) ≤ mx →
        (StringParser.parse_string mn mx buf s e).err = none ∧
          (StringParser.parse_string mn mx buf s e).result =
            (buf.drop (s + 1)).take (c - (s + 1)) ∧
          (StringParser.parse_string mn mx buf s e).next = c + 1))) := by
  refine ⟨?_, ?_, ?_⟩
  · intro h
    simp only [StringParser.parse_string]
    rw [if_pos h]
    exact ⟨rfl, rfl⟩
  · intro hse hpar hno
    have hfc : StringParser.findClose buf e (e - (s + 1)) (s + 1) = e :=
      findClose_spec buf e (e - (s + 1)) (s + 1) e rfl (by omega) (le_refl e)
        (fun j hj1 hj2 => hno j hj2 (by omega)) (Or.inl rfl)
    have hcond : ¬(e ≤ s ∨ buf.getD s ' ' ≠ '(') := by
      push_neg
      exact ⟨hse, hpar⟩
    simp only [StringParser.parse_string]
    rw [if_neg hcond, hfc, if_pos rfl]
    exact ⟨rfl, rfl⟩
  · intro c hsc hce hcl hno hpar
    have hfc : StringParser.findClose buf e (e - (s + 1)) (s + 1) = c :=
      findClose_spec buf e (e - (s + 1)) (s + 1) c rfl (by omega) (by omega)
        (fun j hj1 hj2 => hno j hj2 (by omega)) (Or.inr hcl)
    have hcond : ¬(e ≤ s ∨ buf.getD s ' ' ≠ '(') := by
      push_neg
      exact ⟨by omega, hpar⟩
    constructor
    · intro hlen
      simp only [StringParser.parse_string]
      rw [if_neg hcond, hfc, if_neg (by omega : ¬ c = e), if_pos hlen]
      exact ⟨rfl, rfl⟩
    · intro hmn hmx
      simp only [StringParser.parse_string]
      rw [if_neg hcond, hfc, if_neg (by omega : ¬ c = e),
        if_neg (by omega : ¬(c - (s + 1) < mn ∨ mx < c - (s + 1)))]
      exact ⟨rfl, rfl, rfl⟩

/-- Witness for C7: `(ab)` with bounds `[1, 5]` succeeds, returning the
payload `ab` and `next` one past the `)`. -/
theorem c7_parse_string_spec_witness :
    (StringParser.parse_string 1 5 ("(ab)".toList) 0 4).err = none ∧
      (StringParser.parse_string 1 5 ("(ab)".toList) 0 4).result =
        (("(ab)".toList).drop (0 + 1)).take (3 - (0 + 1)) ∧
      (StringParser.parse_string 1 5 ("(ab)".toList) 0 4).next = 3 + 1 :=
  ((c7_parse_string_spec 1 5 ("(ab)".toList) 0 4).2.2 3 (by decide) (by decide) (by decide)
    (by decide) (by decide)).2 (by decide) (by decide)

/-- The dispatch chain on an id that matches no registered field returns
the base case's result: success-shaped, cursor left at `s`, registry
untouched. -/
lemma parsedData_no_match (fields : List FieldDesc) (buf : List Char) (id : ObisId)
    (s e : Nat) (hno : ∀ f ∈ fields, ¬ f.id = id) :
    ParsedData.parse_line fields buf id s e = ({ result := (), next := s }, fields) := by
  induction fields with
  | nil => rfl
  | cons f fs ih =>
    simp only [ParsedData.parse_line]
    rw [if_neg (fun h => hno f (List.mem_cons_self f fs) h.symm),
      ih (fun g hg => hno g (List.mem_cons_of_mem f hg))]

/-- Claim C5: when the parsed OBIS id of a data line matches no registered
field, the dispatch returns a success-shaped result with the cursor
unchanged and the registry untouched, and `P1Parser.parse_line` succeeds
on that line (so the telegram parse continues with subsequent lines). -/
theorem c5_unmatched_id_skipped (fields : List FieldDesc) (buf : List Char) (ls le : Nat)
    (hne : ¬ ls = le)
    (hid : (ObisIdParser.parse buf ls le).err = none)
    (hno : ∀ f ∈ fields, ¬ f.id = (ObisIdParser.parse buf ls le).result) :
    ParsedData.parse_line fields buf (ObisIdParser.parse buf ls le).result
        (ObisIdParser.parse buf ls le).next le =
      ({ result := (), next := (ObisIdParser.parse buf ls le).next }, fields) ∧
    (P1Parser.parse_line fields buf ls le).1.err = none ∧
    (P1Parser.parse_line fields buf ls le).2 = fields := by
  have hdisp := parsedData_no_match fields buf (ObisIdParser.parse buf ls le).result
    (ObisIdParser.parse buf ls le).next le hno
  have hred : P1Parser.parse_line fields buf ls le =
      (({ result := () } : ParseResult Unit).until le, fields) := by
    simp only [P1Parser.parse_line]
    rw [if_neg hne, if_neg (not_not_intro hid), hdisp]
    rw [if_neg (not_not_intro rfl), if_neg (fun h => h.1 rfl)]
  rw [hred]
  exact ⟨hdisp, rfl, rfl⟩

/-- Witness for C5: the line `7-7:7(x)` parses an id matching no field of
the registry `[sampleField]`; the line-level parse succeeds and the
registry is unchanged. -/
theorem c5_unmatched_id_skipped_witness :
    (P1Parser.parse_line [sampleField] ("7-7:7(x)".toList) 0 8).1.err = none ∧
      (P1Parser.parse_line [sampleField] ("7-7:7(x)".toList) 0 8).2 = [sampleField] :=
  ⟨(c5_unmatched_id_skipped [sampleField] ("7-7:7(x)".toList) 0 8 (by decide) (by decide)
      (by decide)).2.1,
    (c5_unmatched_id_skipped [sampleField] ("7-7:7(x)".toList) 0 8 (by decide) (by decide)
      (by decide)).2.2⟩

/-- Claim C6: after dispatching a (non-empty) data line whose id parse and
dispatch both succeeded, `P1Parser.parse_line` succeeds exactly when the
dispatch consumed nothing beyond the OBIS id or consumed exactly through
the end of the line; any other position fails with "Trailing characters on
data line" positioned at the first unconsumed character. -/
theorem c6_trailing_characters (fields : List FieldDesc) (buf : List Char) (ls le : Nat)
    (hne : ¬ ls = le)
    (hid : (ObisIdParser.parse buf ls le).err = none)
    (hdat : (ParsedData.parse_line fields buf (ObisIdParser.parse buf ls le).result
      (ObisIdParser.parse buf ls le).next le).1.err = none) :
    ((P1Parser.parse_line fields buf ls le).1.err = none ↔
      ((ParsedData.parse_line fields buf (ObisIdParser.parse buf ls le).result
          (ObisIdParser.parse buf ls le).next le).1.next =
          (ObisIdParser.parse buf ls le).next ∨
        (ParsedData.parse_line fields buf (ObisIdParser.parse buf ls le).result
          (ObisIdParser.parse buf ls le).next le).1.next = le)) ∧
    (¬ (ParsedData.parse_line fields buf (ObisIdParser.parse buf ls le).result
        (ObisIdParser.parse buf ls le).next le).1.next =
        (ObisIdParser.parse buf ls le).next →
      ¬ (ParsedData.parse_line fields buf (ObisIdParser.parse buf ls le).result
        (ObisIdParser.parse buf ls le).next le).1.next = le →
      (P1Parser.parse_line fields buf ls le).1.err =
          some "Trailing characters on data line" ∧
        (P1Parser.parse_line fields buf ls le).1.ctx =
          some (ParsedData.parse_line fields buf (ObisIdParser.parse buf ls le).result
            (ObisIdParser.parse buf ls le).next le).1.next) := by
  by_cases hcond : (ParsedData.parse_line fields buf (ObisIdParser.parse buf ls le).result
      (ObisIdParser.parse buf ls le).next le).1.next ≠
        (ObisIdParser.parse buf ls le).next ∧
      (ParsedData.parse_line fields buf (ObisIdParser.parse buf ls le).result
        (ObisIdParser.parse buf ls le).next le).1.next ≠ le
  · have hred : P1Parser.parse_line fields buf ls le =
        (({ result := () } : ParseResult Unit).fail "Trailing characters on data line"
          (ParsedData.parse_line fields buf (ObisIdParser.parse buf ls le).result
            (ObisIdParser.parse buf ls le).next le).1.next,
          (ParsedData.parse_line fields buf (ObisIdParser.parse buf ls le).result
            (ObisIdParser.parse buf ls le).next le).2) := by
      simp only [P1Parser.parse_line]
      rw [if_neg hne, if_neg (not_not_intro hid), if_neg (not_not_intro hdat), if_pos hcond]
    rw [hred]
    constructor
    · simp only [ParseResult.fail]
      constructor
      · intro h
        cases h
      · intro h
        rcases h with h | h
        · exact absurd h hcond.1
        · exact absurd h hcond.2
    · intro _ _
      exact ⟨rfl, rfl⟩
  · have hred : P1Parser.parse_line fields buf ls le =
        (({ result := () } : ParseResult Unit).until le,
          (ParsedData.parse_line fields buf (ObisIdParser.parse buf ls le).result
            (ObisIdParser.parse buf ls le).next le).2) := by
      simp only [P1Parser.parse_line]
      rw [if_neg hne, if_neg (not_not_intro hid), if_neg (not_not_intro hdat), if_neg hcond]
    rw [hred]
    constructor
    · simp only [ParseResult.until]
      constructor
      · intro _
        by_contra hor
        push_neg at hor
        exact hcond ⟨hor.1, hor.2⟩
      · intro _
        trivial
    · intro h1 h2
      exact absurd ⟨h1, h2⟩ hcond

/-- Witness for C6: on the line `1-2:3.4.5.6(AB)X`, the registered field
consumes through the `)` at offset 14, leaving the stray `X`; the line
fails with "Trailing characters on data line" positioned at offset 15. -/
theorem c6_trailing_characters_witness :
    (P1Parser.parse_line [sampleField] ("1-2:3.4.5.6(AB)X".toList) 0 16).1.err =
        some "Trailing characters on data line" ∧
      (P1Parser.parse_line [sampleField] ("1-2:3.4.5.6(AB)X".toList) 0 16).1.ctx = some 15 :=
  (c6_trailing_characters [sampleField] ("1-2:3.4.5.6(AB)X".toList) 0 16 (by decide)
    (by decide) (by decide)).2 (by decide) (by decide)

/-! Slot persistence: no stage of the parse ever clears a populated
field slot. -/

lemma parsedData_slot_persist (fields : List FieldDesc) (buf : List Char) (id : ObisId)
    (s e : Nat) :
    ∀ i, ((ParsedData.parse_line fields buf id s e).2.getD i default).val = none →
      (fields.getD i default).val = none := by
  induction fields with
  | nil => intro i h; exact h
  | cons f fs ih =>
    intro i h
    simp only [ParsedData.parse_line] at h
    by_cases hid : id = f.id
    · rw [if_pos hid] at h
      by_cases herr : (f.dec buf s e).err = none
      · rw [if_pos herr] at h
        cases i with
        | zero => simp at h
        | succ i =>
          simp only [List.getD_cons_succ] at h ⊢
          exact h
      · rw [if_neg herr] at h
        exact h
    · rw [if_neg hid] at h
      cases i with
      | zero =>
        simp only [List.getD_cons_zero] at h ⊢
        exact h
      | succ i =>
        simp only [List.getD_cons_succ] at h ⊢
        exact ih i h

lemma p1_parse_line_slot_persist (fields : List FieldDesc) (buf : List Char) (ls le : Nat) :
    ∀ i, ((P1Parser.parse_line fields buf ls le).2.getD i default).val = none →
      (fields.getD i default).val = none := by
  intro i h
  simp only [P1Parser.parse_line] at h
  by_cases h1 : ls = le
  · rw [if_pos h1] at h
    exact h
  · rw [if_neg h1] at h
    by_cases h2 : (ObisIdParser.parse buf ls le).err ≠ none
    · rw [if_pos h2] at h
      exact h
    · rw [if_neg h2] at h
      by_cases h3 : (ParsedData.parse_line fields buf (ObisIdParser.parse buf ls le).result
          (ObisIdParser.parse buf ls le).next le).1.err ≠ none
      · rw [if_pos h3] at h
        exact parsedData_slot_persist fields buf _ _ le i h
      · rw [if_neg h3] at h
        by_cases h4 : (ParsedData.parse_line fields buf (ObisIdParser.parse buf ls le).result
              (ObisIdParser.parse buf ls le).next le).1.next ≠
              (ObisIdParser.parse buf ls le).next ∧
            (ParsedData.parse_line fields buf (ObisIdParser.parse buf ls le).result
              (ObisIdParser.parse buf ls le).next le).1.next ≠ le
        · rw [if_pos h4] at h
          exact parsedData_slot_persist fields buf _ _ le i h
        · rw [if_neg h4] at h
          exact parsedData_slot_persist fields buf _ _ le i h

lemma idLineLoop_slot_persist (fields : List FieldDesc) (buf : List Char) (e s : Nat) :
    ∀ fuel le i,
      ((regOfId (P1Parser.idLineLoop fields buf e s fuel le)).getD i default).val = none →
      (fields.getD i default).val = none := by
  intro fuel
  induction fuel with
  | zero => intro le i h; exact h
  | succ fuel ih =>
    intro le i h
    simp only [P1Parser.idLineLoop] at h
    by_cases h1 : le < e
    · rw [if_pos h1] at h
      by_cases h2 : P1Parser.isTermChar (buf.getD le ' ') = true
      · rw [if_pos h2] at h
        by_cases h3 : le ≤ s + 3 ∨ (buf.getD (s + 3) ' ' ≠ '5' ∧ buf.getD (s + 3) ' ' ≠ '3')
        · rw [if_pos h3] at h
          exact h
        · rw [if_neg h3] at h
          by_cases h4 : (ParsedData.parse_line fields buf (mkObisId 255 255 255 255 255 255)
              s le).1.err ≠ none
          · rw [if_pos h4] at h
            exact parsedData_slot_persist fields buf _ s le i h
          · rw [if_neg h4] at h
            exact parsedData_slot_persist fields buf _ s le i h
      · rw [if_neg h2] at h
        exact ih (le + 1) i h
    · rw [if_neg h1] at h
      exact h

lemma dataLineLoop_slot_persist (buf : List Char) (e : Nat) :
    ∀ fuel fields ls le i,
      ((P1Parser.dataLineLoop buf e fuel fields ls le).2.getD i default).val = none →
      (fields.getD i default).val = none := by
  intro fuel
  induction fuel with
  | zero =>
    intro fields ls le i h
    simp only [P1Parser.dataLineLoop] at h
    by_cases h1 : le ≠ ls
    · rw [if_pos h1] at h
      exact h
    · rw [if_neg h1] at h
      exact h
  | succ fuel ih =>
    intro fields ls le i h
    simp only [P1Parser.dataLineLoop] at h
    by_cases h1 : le < e
    · rw [if_pos h1] at h
      by_cases h2 : P1Parser.isTermChar (buf.getD le ' ') = true
      · rw [if_pos h2] at h
        by_cases h3 : (P1Parser.parse_line fields buf ls le).1.err ≠ none
        · rw [if_pos h3] at h
          exact p1_parse_line_slot_persist fields buf ls le i h
        · rw [if_neg h3] at h
          exact p1_parse_line_slot_persist fields buf ls le i (ih _ _ _ i h)
      · rw [if_neg h2] at h
        exact ih fields ls (le + 1) i h
    · rw [if_neg h1] at h
      by_cases h4 : le ≠ ls
      · rw [if_pos h4] at h
        exact h
      · rw [if_neg h4] at h
        exact h

lemma parse_data_slot_persist (fields : List FieldDesc) (buf : List Char) (s e : Nat) :
    ∀ i, ((P1Parser.parse_data fields buf s e).2.getD i default).val = none →
      (fields.getD i default).val = none := by
  intro i h
  simp only [P1Parser.parse_data] at h
  rcases hloop : P1Parser.idLineLoop fields buf e s (e - s) s with out | ⟨ls, le, f2⟩
  · rw [hloop] at h
    have hper := idLineLoop_slot_persist fields buf e s (e - s) s i
    rw [hloop] at hper
    exact hper h
  · rw [hloop] at h
    have hper := idLineLoop_slot_persist fields buf e s (e - s) s i
    rw [hloop] at hper
    exact hper (dataLineLoop_slot_persist buf e (e - le) f2 ls le i h)

/-- Claim C8 (counterexample): a telegram with a valid CRC whose second
data line is malformed (`.`) makes `P1Parser.parse` fail, yet the field
decoded from the first data line remains populated in the registry —
there is no rollback. -/
theorem c8_rollback_counterexample :
    (P1Parser.parse [sampleField] ("/Abc5\r\n1-2:3.4.5.6(AB)\r\n.\r\n!D776".toList)
        32).1.err = some "OBIS id Empty" ∧
      ((P1Parser.parse [sampleField] ("/Abc5\r\n1-2:3.4.5.6(AB)\r\n.\r\n!D776".toList)
          32).2.getD 0 default).val = some ("AB".toList) := by decide

/-- Claim C8 (amended): when `P1Parser.parse` returns an error, fields
decoded from lines before the failure point remain populated — the parse
never clears a populated slot, so all-or-nothing is only a caller
obligation to discard the registry, not a state guarantee.  Stated as:
any slot that is empty after a parse (failed or not) was already empty
before it. -/
theorem c8_slots_persist (fields : List FieldDesc) (buf : List Char) (n i : Nat)
    (h : ((P1Parser.parse fields buf n).2.getD i default).val = none) :
    (fields.getD i default).val = none := by
  simp only [P1Parser.parse] at h
  by_cases h1 : n = 0 ∨ buf.getD 0 ' ' ≠ '/'
  · rw [if_pos h1] at h
    exact h
  · rw [if_neg h1] at h
    by_cases h2 : n ≤
        (P1Parser.scanBang buf n (n - 1) 1 (crc16_update 0 (buf.getD 0 ' ').toNat)).1
    · rw [if_pos h2] at h
      exact h
    · rw [if_neg h2] at h
      by_cases h3 : (CrcParser.parse buf
          ((P1Parser.scanBang buf n (n - 1) 1 (crc16_update 0 (buf.getD 0 ' ').toNat)).1 + 1)
          n).err ≠ none
      · rw [if_pos h3] at h
        exact h
      · rw [if_neg h3] at h
        by_cases h4 : (CrcParser.parse buf
            ((P1Parser.scanBang buf n (n - 1) 1
              (crc16_update 0 (buf.getD 0 ' ').toNat)).1 + 1) n).result ≠
            crc16_update
              (P1Parser.scanBang buf n (n - 1) 1 (crc16_update 0 (buf.getD 0 ' ').toNat)).2
              (buf.getD
                (P1Parser.scanBang buf n (n - 1) 1
                  (crc16_update 0 (buf.getD 0 ' ').toNat)).1 ' ').toNat
        · rw [if_pos h4] at h
          exact h
        · rw [if_neg h4] at h
          exact parse_data_slot_persist fields buf 1 _ i h

/-- Witness for the amended C8: after parsing the failing telegram of the
counterexample with a two-field registry, the second field's slot is still
empty, hence it was empty at entry. -/
theorem c8_slots_persist_witness :
    ([sampleField, otherField].getD 1 default).val = none :=
  c8_slots_persist [sampleField, otherField]
    ("/Abc5\r\n1-2:3.4.5.6(AB)\r\n.\r\n!D776".toList) 32 1 (by decide)

/-- Claim C9: a buffer whose payload between `/` and `!` is empty — the
buffer is `/!` followed by a matching 4-hex-digit CRC — parses
successfully even though the telegram contains no identification line,
because the identification-line validity check only runs when a line
terminator is found in the payload. -/
theorem c9_empty_payload (fields : List FieldDesc) (a b c d : Char)
    (ha : isHexDigitC a = true) (hb : isHexDigitC b = true)
    (hc : isHexDigitC c = true) (hd : isHexDigitC d = true)
    (hv : ((hexVal a * 16 + hexVal b) * 16 + hexVal c) * 16 + hexVal d = crcList ['/', '!']) :
    (P1Parser.parse fields ['/', '!', a, b, c, d] 6).1.err = none ∧
      (P1Parser.parse fields ['/', '!', a, b, c, d] 6).1.next = 6 ∧
      (P1Parser.parse fields ['/', '!', a, b, c, d] 6).2 = fields := by
  have hOr : ¬((6 : Nat) = 0 ∨ (['/', '!', a, b, c, d].getD 0 ' ') ≠ '/') := by
    push_neg
    exact ⟨by omega, rfl⟩
  have hscan : P1Parser.scanBang ['/', '!', a, b, c, d] 6 (6 - 1) 1
      (crc16_update 0 ((['/', '!', a, b, c, d].getD 0 ' ')).toNat) =
      (1, crc16_update 0 (('/' : Char)).toNat) := rfl
  have hred := p1_parse_reduce fields ['/', '!', a, b, c, d] 6 1
    (crc16_update 0 (('/' : Char)).toNat) hOr hscan (by omega)
  have hcheck : CrcParser.parse ['/', '!', a, b, c, d] (1 + 1) 6 =
      { result := ((hexVal a * 16 + hexVal b) * 16 + hexVal c) * 16 + hexVal d,
        next := 1 + 1 + 4 } :=
    crcParser_hex4 ['/', '!', a, b, c, d] (1 + 1) 6 a b c d rfl (by omega) ha hb hc hd
  have hce : (CrcParser.parse ['/', '!', a, b, c, d] (1 + 1) 6).err = none := by
    rw [hcheck]
  have hres : (CrcParser.parse ['/', '!', a, b, c, d] (1 + 1) 6).result =
      ((hexVal a * 16 + hexVal b) * 16 + hexVal c) * 16 + hexVal d := by
    rw [hcheck]
  have hnn : ¬((CrcParser.parse ['/', '!', a, b, c, d] (1 + 1) 6).result ≠
      crc16_update (crc16_update 0 ('/' : Char).toNat)
        ((['/', '!', a, b, c, d].getD 1 ' ')).toNat) := by
    have hcl : crcList ['/', '!'] =
        crc16_update (crc16_update 0 ('/' : Char).toNat) (('!' : Char)).toNat := by decide
    have hgd : (['/', '!', a, b, c, d].getD 1 ' ') = '!' := rfl
    rw [hres, hgd]
    exact not_not_intro (hv.trans hcl)
  rw [hred, if_neg (not_not_intro hce), if_neg hnn]
  refine ⟨rfl, ?_, rfl⟩
  simp [hcheck]

/-- Witness for C9: `/!28DC` (0x28DC = 10460 is the CRC16 of `/!`)
parses successfully with `next` = 6 and the registry untouched. -/
theorem c9_empty_payload_witness :
    (P1Parser.parse [sampleField] ['/', '!', '2', '8', 'D', 'C'] 6).1.err = none ∧
      (P1Parser.parse [sampleField] ['/', '!', '2', '8', 'D', 'C'] 6).1.next = 6 ∧
      (P1Parser.parse [sampleField] ['/', '!', '2', '8', 'D', 'C'] 6).2 = [sampleField] :=
  c9_empty_payload [sampleField] '2' '8' 'D' 'C' (by decide) (by decide) (by decide)
    (by decide) (by decide)

/-- Claim C10: whenever `P1Parser.parse` leaves the registry modified, the
framing check passed, a `!` was found, and the checksum was decoded
successfully and matched the accumulated CRC — equivalently, a failure at
framing, checksum decoding, or checksum verification leaves the caller's
registry completely unmodified: no field decode runs before the checksum
has been verified. -/
theorem c10_registry_untouched (fields : List FieldDesc) (buf : List Char) (n : Nat)
    (hlen : n ≤ buf.length)
    (hchange : ¬ (P1Parser.parse fields buf n).2 = fields) :
    ¬ n = 0 ∧ buf.getD 0 ' ' = '/' ∧
      ∃ b, b < n ∧ buf.getD b ' ' = '!' ∧ (∀ j, j < b → buf.getD j ' ' ≠ '!') ∧
        (CrcParser.parse buf (b + 1) n).err = none ∧
        (CrcParser.parse buf (b + 1) n).result = crcList (buf.take (b + 1)) := by
  by_cases h1 : n = 0 ∨ buf.getD 0 ' ' ≠ '/'
  · exfalso
    apply hchange
    simp only [P1Parser.parse]
    rw [if_pos h1]
  · have hOr2 := h1
    push_neg at h1
    obtain ⟨hn0, h0⟩ := h1
    refine ⟨hn0, h0, ?_⟩
    obtain ⟨k, c, hkc⟩ : ∃ k c, P1Parser.scanBang buf n (n - 1) 1
        (crc16_update 0 (buf.getD 0 ' ').toNat) = (k, c) := ⟨_, _, rfl⟩
    obtain ⟨hs1, hs2, hs3, hs4, hs5⟩ :=
      scanBang_spec buf n hlen (n - 1) 1 _ k c hkc (by omega) (by omega)
    by_cases hnb : n ≤ k
    · exfalso
      apply hchange
      simp only [P1Parser.parse]
      rw [if_neg hOr2, hkc]
      dsimp only
      rw [if_pos hnb]
    · have hred := p1_parse_reduce fields buf n k c hOr2 hkc hnb
      have hcrc : crc16_update c (buf.getD k ' ').toNat = crcList (buf.take (k + 1)) := by
        rw [hs5, ← crcFold_last buf _ 1 k hs1 (by omega), crcList_take,
          crcFold_first buf 0 0 (k + 1) (by omega) (by omega)]
      have hfirst : ∀ j, j < k → buf.getD j ' ' ≠ '!' := by
        intro j hj
        rcases Nat.eq_zero_or_pos j with hz | hp
        · subst hz
          rw [h0]
          decide
        · exact hs3 j hp hj
      by_cases hce : (CrcParser.parse buf (k + 1) n).err = none
      · by_cases heq : (CrcParser.parse buf (k + 1) n).result =
            crc16_update c (buf.getD k ' ').toNat
        · exact ⟨k, by omega, hs4 (by omega), hfirst, hce, by rw [heq, hcrc]⟩
        · exfalso
          apply hchange
          rw [hred, if_neg (not_not_intro hce), if_pos heq]
      · exfalso
        apply hchange
        rw [hred, if_pos hce]

/-- Witness for C10: parsing a valid telegram populates `sampleField`
(so the registry changes), and the conclusion holds: the checksum region
was decoded and matched. -/
theorem c10_registry_untouched_witness :
    ¬ (29 : Nat) = 0 ∧ (("/Abc5\r\n1-2:3.4.5.6(AB)\r\n!FA7E".toList).getD 0 ' ' = '/') ∧
      ∃ b, b < 29 ∧ (("/Abc5\r\n1-2:3.4.5.6(AB)\r\n!FA7E".toList).getD b ' ' = '!') ∧
        (∀ j, j < b → ("/Abc5\r\n1-2:3.4.5.6(AB)\r\n!FA7E".toList).getD j ' ' ≠ '!') ∧
        (CrcParser.parse ("/Abc5\r\n1-2:3.4.5.6(AB)\r\n!FA7E".toList) (b + 1) 29).err = none ∧
        (CrcParser.parse ("/Abc5\r\n1-2:3.4.5.6(AB)\r\n!FA7E".toList) (b + 1) 29).result =
          crcList (("/Abc5\r\n1-2:3.4.5.6(AB)\r\n!FA7E".toList).take (b + 1)) :=
  c10_registry_untouched [sampleField] ("/Abc5\r\n1-2:3.4.5.6(AB)\r\n!FA7E".toList) 29
    (by decide)
    (fun h => absurd (congrArg (fun l => (l.getD 0 default).val) h) (by decide))

end Dsmr
